import Mathlib

/-!
Verification of the AllClad calibration-tracking ingestion pipeline.

This file gives a shallow embedding, in Lean 4, of the certificate
ingestion and reconciliation core of the repository (src/app.py,
src/models.py) and proves properties of it.

Modelling conventions:
* Python strings are modelled as `List Char` (`Str`); Python's `str.lower`
  and SQL `lower`/`ilike` act on ASCII data here and are modelled by an
  ASCII case table.
* Python `date` values are modelled by `CalDate` (year, month, day) with
  lexicographic comparison; `dateutil.relativedelta` month/year arithmetic
  (which clamps the day to the target month's length) is modelled by
  `addMonths`, and day arithmetic by a rata-die conversion.
* `None` becomes `Option.none`; Python string truthiness becomes an
  emptiness test.
* The SQLAlchemy store is modelled as a list of `Tool` records; `.first()`
  on a filtered query becomes `List.find?` on that list.
-/

abbrev Str := List Char

/-- ASCII upper-to-lower case table. -/
def lowerTable : List (Char × Char) :=
  [('A', 'a'), ('B', 'b'), ('C', 'c'), ('D', 'd'), ('E', 'e'), ('F', 'f'),
   ('G', 'g'), ('H', 'h'), ('I', 'i'), ('J', 'j'), ('K', 'k'), ('L', 'l'),
   ('M', 'm'), ('N', 'n'), ('O', 'o'), ('P', 'p'), ('Q', 'q'), ('R', 'r'),
   ('S', 's'), ('T', 't'), ('U', 'u'), ('V', 'v'), ('W', 'w'), ('X', 'x'),
   ('Y', 'y'), ('Z', 'z')]

/-- ASCII lowercase of one character (model of Python `str.lower` on one char). -/
def lowerChar (c : Char) : Char :=
  match lowerTable.find? (fun p => p.1 == c) with
  | some p => p.2
  | none => c

/-- ASCII uppercase of one character (model of Python `str.upper` on one char). -/
def upperChar (c : Char) : Char :=
  match lowerTable.find? (fun p => p.2 == c) with
  | some p => p.1
  | none => c

/-- Whitespace characters stripped by Python `str.strip`. -/
def isSpaceChar (c : Char) : Bool :=
  c = ' ' || c = '\t' || c = '\n' || c = '\r' || c = '\x0b' || c = '\x0c'

/-- Model of Python `str.lower` (ASCII). -/
def asciiLower (s : Str) : Str := s.map lowerChar

/-- Model of Python `str.upper` (ASCII). -/
def asciiUpper (s : Str) : Str := s.map upperChar

/-- Model of Python `str.strip` (no argument): drop whitespace at both ends. -/
def strip (s : Str) : Str :=
  ((s.dropWhile isSpaceChar).reverse.dropWhile isSpaceChar).reverse

/-- Model of Python `needle in haystack` on strings: contiguous-substring test. -/
def containsSub (pat s : Str) : Bool := decide (pat <:+: s)

/-- Model of SQL `ilike '%pat%'`: case-insensitive containment. -/
def icontains (pat field : Str) : Bool := containsSub (asciiLower pat) (asciiLower field)

/-- Digit test for re's `\d` on the ASCII data handled here. -/
def isDigitChar (c : Char) : Bool := '0' ≤ c && c ≤ '9'

/-- Numeric value of a digit string (model of Python `int` on a `\d+` capture). -/
def digitsToNat (s : Str) : Nat :=
  s.foldl (fun n c => 10 * n + (c.toNat - '0'.toNat)) 0

/-- Leftmost maximal digit run in a string: the capture of `re.search(r"(\d+)", s)`,
`none` when the string has no digit. -/
def firstDigitRun (s : Str) : Option Str :=
  let rest := s.dropWhile (fun c => !isDigitChar c)
  match rest with
  | [] => none
  | _ => some (rest.takeWhile isDigitChar)

/-- Model of `re.match(r"(\d+)\s*/?\s*years?", s)`: a leading digit run, optional
spaces, an optional slash, optional spaces, then the literal `year`.  Returns the
numeric value of the digit capture when the pattern matches a prefix of `s`. -/
def matchYearsNum (s : Str) : Option Nat :=
  let digits := s.takeWhile isDigitChar
  if digits = [] then none
  else
    let rest := (s.drop digits.length).dropWhile isSpaceChar
    let rest := match rest with
      | '/' :: r => r.dropWhile isSpaceChar
      | r => r
    if "year".data.isPrefixOf rest then some (digitsToNat digits) else none

/-- Calendar date (model of Python `datetime.date`). -/
structure CalDate where
  y : Nat
  m : Nat
  d : Nat
deriving DecidableEq, Repr

/-- Strict calendar order on dates (model of `<` on Python dates). -/
def dateLt (a b : CalDate) : Bool :=
  a.y < b.y || (a.y == b.y && (a.m < b.m || (a.m == b.m && a.d < b.d)))

/-- Gregorian leap-year test. -/
def isLeapYear (y : Nat) : Bool :=
  y % 4 == 0 && (y % 100 != 0 || y % 400 == 0)

/-- Length of a month in days. -/
def daysInMonth (y m : Nat) : Nat :=
  if m = 2 then (if isLeapYear y then 29 else 28)
  else if m = 4 ∨ m = 6 ∨ m = 9 ∨ m = 11 then 30
  else 31

/-- Days in the year strictly before month `m`. -/
def daysBeforeMonth (y m : Nat) : Nat :=
  (List.range (m - 1)).foldl (fun acc i => acc + daysInMonth y (i + 1)) 0

/-- Rata-die day number of a date (0001-01-01 is day 1); valid for years ≥ 1. -/
def rataDie (dt : CalDate) : Nat :=
  (365 * (dt.y - 1) + (dt.y - 1) / 4 + (dt.y - 1) / 400
    + daysBeforeMonth dt.y dt.m + dt.d) - (dt.y - 1) / 100

/-- Inverse of `rataDie` (standard civil-from-days conversion). -/
def fromRataDie (n : Int) : CalDate :=
  let z : Int := n + 305
  let era : Int := Int.fdiv z 146097
  let doe : Int := z - era * 146097
  let yoe : Int := (doe - doe / 1460 + doe / 36524 - doe / 146096) / 365
  let doy : Int := doe - (365 * yoe + yoe / 4 - yoe / 100)
  let mp : Int := (5 * doy + 2) / 153
  let dd : Int := doy - (153 * mp + 2) / 5 + 1
  let mm : Int := mp + (if mp < 10 then 3 else -9)
  let yy : Int := yoe + era * 400 + (if mm ≤ 2 then 1 else 0)
  ⟨yy.toNat, mm.toNat, dd.toNat⟩

/-- Day difference `b - a` (model of `(b - a).days` on Python dates). -/
def daysBetween (a b : CalDate) : Int :=
  (rataDie b : Int) - (rataDie a : Int)

/-- Model of `relativedelta(days = n)` addition. -/
def addDays (dt : CalDate) (n : Int) : CalDate :=
  fromRataDie ((rataDie dt : Int) + n)

/-- Model of `relativedelta(months = n)` addition: month arithmetic clamping the
day to the length of the target month. -/
def addMonths (dt : CalDate) (n : Nat) : CalDate :=
  let t := dt.m - 1 + n
  let y := dt.y + t / 12
  let m := t % 12 + 1
  ⟨y, m, min dt.d (daysInMonth y m)⟩

/-! ### src/models.py -/

/-- Tool / instrument record (src/models.py `Tool`).  String columns default to
the empty string, date columns to `none`.  `tool_id_number` is referenced
throughout src/app.py as a Tool column and is modelled as one here. -/
structure Tool where
  name : Str := []
  description : Str := []
  tool_type : Str := []
  manufacturer : Str := []
  model_number : Str := []
  serial_number : Str := []
  log_number : Str := []
  location : Str := []
  owner : Str := []
  schedule : Str := "annual".data
  custom_interval_days : Option Int := none
  status : Str := "active".data
  on_backup_list : Bool := false
  last_calibration_date : Option CalDate := none
  next_calibration_date : Option CalDate := none
  comments : Str := []
  sticker_id : Str := []
  tool_id_number : Str := []
deriving DecidableEq, Repr

/-- Model of the `SCHEDULE_DELTAS` lookup: the relativedelta attached to each
non-custom schedule code (`relativedelta(years = k)` behaves as 12·k months). -/
def scheduleDeltas (schedule : Str) : Option (CalDate → CalDate) :=
  if schedule = "monthly".data then some (addMonths · 1)
  else if schedule = "quarterly".data then some (addMonths · 3)
  else if schedule = "semiannual".data then some (addMonths · 6)
  else if schedule = "annual".data then some (addMonths · 12)
  else if schedule = "biennial".data then some (addMonths · 24)
  else none

/-- Python truthiness of the optional `custom_days` integer. -/
def customTruthy : Option Int → Bool
  | none => false
  | some n => n != 0

/-- Model of `_next_cal_date` (src/models.py): next due date from the last
calibration, the schedule code and the optional custom interval. -/
def next_cal_date (last_cal_date : Option CalDate) (schedule : Str)
    (custom_days : Option Int) : Option CalDate :=
  match last_cal_date with
  | none => none
  | some dt =>
    if schedule = "custom".data ∧ customTruthy custom_days then
      some (addDays dt (custom_days.getD 0))
    else
      match scheduleDeltas schedule with
      | some delta => some (delta dt)
      | none => none

/-- Model of `Tool.recalculate_next_date`. -/
def recalculate_next_date (t : Tool) : Tool :=
  { t with next_calibration_date :=
      next_cal_date t.last_calibration_date t.schedule t.custom_interval_days }

/-- Statuses excluded from the automatic refresh in `Tool.refresh_status`. -/
def manualStatuses : List Str :=
  ["backup".data, "not_in_use".data, "repurposed".data, "retired".data]

/-- Model of `Tool.refresh_status`: date-driven status update, skipped for
manually managed statuses and for tools without a next calibration date. -/
def refresh_status (today : CalDate) (t : Tool) : Tool :=
  if manualStatuses.contains t.status then t
  else
    match t.next_calibration_date with
    | none => t
    | some n =>
      if dateLt n today then { t with status := "overdue".data }
      else if daysBetween today n ≤ 30 then { t with status := "due_soon".data }
      else { t with status := "active".data }

/-! ### src/app.py — certificate boundary detection -/

/-- Keyword set of `is_cert_start_page`. -/
def certIndicators : List Str :=
  ["certificate of calibration".data, "cert #".data, "cert#".data,
   "serviced by".data, "serviced for".data, "equipment information".data]

/-- Model of `is_cert_start_page`: at least two indicator keywords occur in the
lower-cased page text. -/
def is_cert_start_page (text : Str) : Bool :=
  2 ≤ certIndicators.countP (fun kw => containsSub kw (asciiLower text))

/-- Indices of the pages detected as certificate starts (the `cert_starts`
list): a document is modelled as its list of per-page texts. -/
def certStartPages (pages : List Str) : List Nat :=
  (List.range pages.length).filter (fun i => is_cert_start_page (pages.getD i []))

/-- Range-building loop of `split_pdf_into_certificates`: each start index is
paired with the page before the next start, the last with the final page. -/
def buildRanges : List Nat → Nat → List (Nat × Nat)
  | [], _ => []
  | [s], total => [(s, total - 1)]
  | s :: s' :: rest, total => (s, s' - 1) :: buildRanges (s' :: rest) total

/-- Model of `split_pdf_into_certificates` over the document's page texts.
Returns inclusive 0-indexed (start, end) page ranges. -/
def split_pdf_into_certificates (pages : List Str) : List (Nat × Nat) :=
  if pages.length = 0 then []
  else
    let cert_starts := certStartPages pages
    if cert_starts = [] then [(0, pages.length - 1)]
    else buildRanges cert_starts pages.length

/-! ### src/app.py — result and schedule normalization -/

/-- Model of `determine_cert_result`: vendor result string to internal code. -/
def determine_cert_result (cal_result_str : Str) : Str :=
  if cal_result_str = [] then "pass".data
  else
    let upper := strip (asciiUpper cal_result_str)
    if upper = "PASS".data ∨ upper = "PASSED".data then "pass".data
    else if upper = "FAIL".data ∨ upper = "FAILED".data then "fail".data
    else if "LTD".data.isPrefixOf upper ∨ "LIMITED".data.isPrefixOf upper then
      "limited".data
    else if containsSub "ADJUST".data upper then "adjusted".data
    else "pass".data

/-- Month-threshold branch of `determine_schedule_from_interval`; `none` when
the branch falls through without returning. -/
def scheduleFromMonths (lower : Str) : Option Str :=
  if containsSub "month".data lower then
    match firstDigitRun lower with
    | some ds =>
      let months := digitsToNat ds
      if months ≤ 1 then some "monthly".data
      else if months ≤ 3 then some "quarterly".data
      else if months ≤ 6 then some "semiannual".data
      else if months ≤ 12 then some "annual".data
      else if months ≤ 24 then some "biennial".data
      else none
    | none => none
  else none

/-- Year-threshold branch of `determine_schedule_from_interval`. -/
def scheduleFromYears (lower : Str) : Option Str :=
  if containsSub "year".data lower then
    match firstDigitRun lower with
    | some ds =>
      let years := digitsToNat ds
      if years ≤ 1 then some "annual".data
      else if years ≤ 2 then some "biennial".data
      else none
    | none => none
  else none

/-- Model of `determine_schedule_from_interval`: certificate interval string to
schedule code, with `"semiannual"` as the Cal Tec Labs fall-through default. -/
def determine_schedule_from_interval (interval_str : Str) : Str :=
  if interval_str = [] then "annual".data
  else
    let lower := asciiLower (strip interval_str)
    match scheduleFromMonths lower with
    | some s => s
    | none =>
      match scheduleFromYears lower with
      | some s => s
      | none => "semiannual".data

/-! ### src/app.py — identifier matcher -/

/-- Tag describing which rule of `match_cert_to_tool` produced the match,
with the certificate value it matched on (model of the `match_method`
strings such as `f"equipment_id={cert_tool_id}"`). -/
inductive MatchMethod where
  | equipment_id (v : Str)
  | sticker_id (v : Str)
  | log_number (v : Str)
  | serial_number (v : Str)
  | equipment_id_contains (v : Str)
  | serial_contains (v : Str)
deriving DecidableEq, Repr

/-- Rule 1 of `match_cert_to_tool`: exact (case-insensitive) equipment id
against `tool_id_number`. -/
def matchRule1 (ct : Str) (tools : List Tool) : Option Tool :=
  if ct = [] then none
  else tools.find? (fun t => asciiLower t.tool_id_number == asciiLower ct)

/-- Rule 2: exact equipment id against `sticker_id`. -/
def matchRule2 (ct : Str) (tools : List Tool) : Option Tool :=
  if ct = [] then none
  else tools.find? (fun t => asciiLower t.sticker_id == asciiLower ct)

/-- Rule 3: exact equipment id against `log_number`. -/
def matchRule3 (ct : Str) (tools : List Tool) : Option Tool :=
  if ct = [] then none
  else tools.find? (fun t => asciiLower t.log_number == asciiLower ct)

/-- Rule 4: exact serial number match. -/
def matchRule4 (cs : Str) (tools : List Tool) : Option Tool :=
  if cs = [] then none
  else tools.find? (fun t => asciiLower t.serial_number == asciiLower cs)

/-- Rule 5: equipment id containment (`ilike`), gated on length ≥ 3. -/
def matchRule5 (ct : Str) (tools : List Tool) : Option Tool :=
  if ct = [] ∨ ct.length < 3 then none
  else tools.find? (fun t => icontains ct t.tool_id_number)

/-- Rule 6: serial containment (`ilike`), gated on length ≥ 4. -/
def matchRule6 (cs : Str) (tools : List Tool) : Option Tool :=
  if cs = [] ∨ cs.length < 4 then none
  else tools.find? (fun t => icontains cs t.serial_number)

/-- Model of `match_cert_to_tool`: the certificate's serial number and
equipment id (the only two `cert_data` fields the rules read) are stripped,
then the six rules run in priority order, the first hit short-circuiting. -/
def match_cert_to_tool (cert_serial cert_tool_id : Str) (tools : List Tool) :
    Option (Tool × MatchMethod) :=
  let cs := strip cert_serial
  let ct := strip cert_tool_id
  match matchRule1 ct tools with
  | some t => some (t, .equipment_id ct)
  | none =>
  match matchRule2 ct tools with
  | some t => some (t, .sticker_id ct)
  | none =>
  match matchRule3 ct tools with
  | some t => some (t, .log_number ct)
  | none =>
  match matchRule4 cs tools with
  | some t => some (t, .serial_number cs)
  | none =>
  match matchRule5 ct tools with
  | some t => some (t, .equipment_id_contains ct)
  | none =>
  match matchRule6 cs tools with
  | some t => some (t, .serial_contains cs)
  | none => none

/-! ### src/app.py — reconciliation of a matched tool (`bulk_upload` body) -/

/-- Date-guard block of `bulk_upload` (and `bulk_upload_link`): the last
calibration date is overwritten only when absent or strictly older than the
certificate date; the next date then comes from the certificate's due date
when stated, else from `recalculate_next_date`. -/
def updateToolDates (t : Tool) (cal_date : CalDate) (cal_due_date : Option CalDate) :
    Tool :=
  if (match t.last_calibration_date with
      | none => true
      | some l => dateLt l cal_date) then
    let t1 := { t with last_calibration_date := some cal_date }
    match cal_due_date with
    | some d => { t1 with next_calibration_date := some d }
    | none => recalculate_next_date t1
  else t

/-- Metadata-backfill block of `bulk_upload`: each field is filled from the
certificate only when the certificate value is non-empty and the tool's value
is empty. -/
def backfillToolInfo (t : Tool)
    (cert_tool_id cert_serial cert_manufacturer cert_model cert_description : Str) :
    Tool :=
  let t1 := if cert_tool_id ≠ [] ∧ t.tool_id_number = [] then
    { t with tool_id_number := cert_tool_id } else t
  let t2 := if cert_serial ≠ [] ∧ t1.serial_number = [] then
    { t1 with serial_number := cert_serial } else t1
  let t3 := if cert_manufacturer ≠ [] ∧ t2.manufacturer = [] then
    { t2 with manufacturer := cert_manufacturer } else t2
  let t4 := if cert_model ≠ [] ∧ t3.model_number = [] then
    { t3 with model_number := cert_model } else t3
  if cert_description ≠ [] ∧ t4.description = [] then
    { t4 with description := cert_description } else t4

/-- Schedule-update block of `bulk_upload`: a non-empty certificate interval
replaces the tool's schedule (and nothing else). -/
def updateToolSchedule (t : Tool) (cal_interval : Str) : Tool :=
  if cal_interval ≠ [] then
    { t with schedule := determine_schedule_from_interval cal_interval }
  else t

/-- Status block of `bulk_upload`: a failing result forces `out_of_cal`,
anything else runs the standard refresh. -/
def applyResultStatus (result_code : Str) (today : CalDate) (t : Tool) : Tool :=
  if result_code = "fail".data then { t with status := "out_of_cal".data }
  else refresh_status today t

/-- Whole tool-update sequence of `bulk_upload` for one matched certificate:
dates, metadata backfill, schedule, then status, in source order. -/
def updateToolFromCert (t : Tool) (cal_date : CalDate) (cal_due_date : Option CalDate)
    (cert_tool_id cert_serial cert_manufacturer cert_model cert_description : Str)
    (cal_interval : Str) (result_code : Str) (today : CalDate) : Tool :=
  applyResultStatus result_code today
    (updateToolSchedule
      (backfillToolInfo (updateToolDates t cal_date cal_due_date)
        cert_tool_id cert_serial cert_manufacturer cert_model cert_description)
      cal_interval)

/-! ### src/app.py — CSV legacy importer -/

/-- Ordered `SCHEDULE_MAP` of the CSV importer (Python dict order). -/
def SCHEDULE_MAP : List (Str × Str) :=
  [("monthly".data, "monthly".data),
   ("quarterly".data, "quarterly".data),
   ("6 months".data, "semiannual".data),
   ("6 month".data, "semiannual".data),
   ("semiannual".data, "semiannual".data),
   ("semi-annual".data, "semiannual".data),
   ("yearly".data, "annual".data),
   ("annual".data, "annual".data),
   ("1 year".data, "annual".data),
   ("12 months".data, "annual".data),
   ("biennial".data, "biennial".data),
   ("24 months".data, "biennial".data),
   ("2 years".data, "biennial".data),
   ("5 years".data, "custom".data)]

/-- Model of `parse_schedule` (CSV importer): first `SCHEDULE_MAP` key contained
in the cleaned string wins; otherwise an `"N years"` prefix maps 1 → annual,
2 → biennial, more → custom; otherwise annual. -/
def parse_schedule (raw : Str) : Str :=
  if raw = [] then "annual".data
  else
    let cleaned := asciiLower (strip raw)
    match SCHEDULE_MAP.find? (fun kv => containsSub kv.1 cleaned) with
    | some kv => kv.2
    | none =>
      match matchYearsNum cleaned with
      | some n =>
        if n = 1 then "annual".data
        else if n = 2 then "biennial".data
        else "custom".data
      | none =>
        if containsSub "year".data cleaned then "annual".data else "annual".data

/-- Model of `parse_custom_days` (CSV importer): `"N years"` with N > 2 gives
N × 365 days, anything else `none`. -/
def parse_custom_days (raw : Str) : Option Int :=
  if raw = [] then none
  else
    match matchYearsNum (asciiLower (strip raw)) with
    | some n => if n > 2 then some ((n : Int) * 365) else none
    | none => none

/-- Existing-tool lookup of `csv_import`: exact (case-sensitive) serial-number
equality, first hit. -/
def csvFindExisting (serial : Str) (tools : List Tool) : Option Tool :=
  tools.find? (fun t => t.serial_number == serial)

/-- Update branch of `csv_import` for a row matching an existing tool:
append non-duplicate notes to comments, conditionally set the sticker from the
certificate column, backfill the owner when empty. -/
def csvUpdateExisting (existing : Tool) (notes cert person : Str) : Tool :=
  let t1 := if notes ≠ [] ∧ ¬ containsSub notes existing.comments then
    { existing with comments :=
        existing.comments ++ (if existing.comments ≠ [] then ['\n'] else []) ++ notes }
    else existing
  let t2 := if cert ≠ [] ∧
      ¬ ["x".data, "missing".data, "not checked".data].contains (asciiLower cert) then
    (if ¬ containsSub cert t1.sticker_id then { t1 with sticker_id := cert } else t1)
    else t1
  if person ≠ [] ∧ t2.owner = [] then { t2 with owner := person } else t2

/-! ### src/app.py — certificate field extraction (`parse_cal_tec_cert`) -/

/-- One parsed test-point row. -/
structure TestPointRow where
  seq : Nat
  description : Str
  raw : Str
deriving DecidableEq, Repr

/-- One parsed standards-used row (`company` key present only when the line
split into at least two multi-space segments). -/
structure StandardRow where
  company : Option Str
  raw : Str
deriving DecidableEq, Repr

/-- Normalized certificate record returned by `parse_cal_tec_cert`: every
field present, defaulted to the empty string / `none` / the empty list. -/
structure CertData where
  cert_number : Str := []
  generated_date : Str := []
  work_order : Str := []
  tool_id : Str := []
  serial_number : Str := []
  manufacturer : Str := []
  model_number : Str := []
  tool_type : Str := []
  description : Str := []
  cal_result : Str := []
  cal_due_date : Option CalDate := none
  cal_date : Option CalDate := none
  as_found : Str := []
  as_left : Str := []
  crib_bin : Str := []
  service_technician : Str := []
  temperature : Str := []
  cal_interval : Str := []
  test_points : List TestPointRow := []
  standards_used : List StandardRow := []
  procedures_used : List Str := []
  building : Str := []
  floor : Str := []
  room : Str := []
deriving DecidableEq, Repr

/-- Outcome of the `re.search` calls of `parse_cal_tec_cert` on the input text:
each field holds the captured group when the pattern matched, `none` otherwise.
The regex engine itself is external to this embedding (pure text matching);
the deterministic post-processing of every capture is embedded below.
`descMatch` stands for the per-line `re.match` used inside the test-points
table for the description group. -/
structure RegexCaps where
  cert_number : Option Str := none
  generated_date : Option Str := none
  work_order : Option Str := none
  tool_id : Option Str := none
  serial_number : Option Str := none
  manufacturer : Option Str := none
  model_number : Option Str := none
  tool_type : Option Str := none
  description : Option Str := none
  cal_result : Option Str := none
  cal_due_date : Option Str := none
  cal_date : Option Str := none
  as_found : Option Str := none
  as_left : Option Str := none
  service_technician : Option Str := none
  temperature : Option Str := none
  cal_interval : Option Str := none
  building : Option Str := none
  floor : Option Str := none
  room : Option Str := none
  tp_section : Option Str := none
  std_section : Option Str := none
  descMatch : Str → Option Str := fun _ => none

/-- Model of `datetime.strptime(s, "%m/%d/%Y").date()` wrapped in
`try/except ValueError`: month and day of 1–2 digits, year of exactly 4
digits, in-range under the Gregorian month lengths; `none` on any failure. -/
def parseMDY (s : Str) : Option CalDate :=
  match s.splitOn '/' with
  | [ms, ds, ys] =>
    if ms ≠ [] ∧ ms.length ≤ 2 ∧ ms.all isDigitChar ∧
       ds ≠ [] ∧ ds.length ≤ 2 ∧ ds.all isDigitChar ∧
       ys.length = 4 ∧ ys.all isDigitChar then
      let m := digitsToNat ms
      let d := digitsToNat ds
      let y := digitsToNat ys
      if 1 ≤ m ∧ m ≤ 12 ∧ 1 ≤ d ∧ d ≤ daysInMonth y m ∧ 1 ≤ y then
        some ⟨y, m, d⟩
      else none
    else none
  | _ => none

/-- First index at which `pat` occurs in `s` (model of Python `str.find`,
with `none` for -1). -/
def findSubIdx (pat s : Str) : Option Nat :=
  (List.range (s.length + 1)).find? (fun i => pat.isPrefixOf (s.drop i))

/-- Stop-marker truncation loop used for the manufacturer / model / type
fields: truncate at each stop marker found at a positive index, re-stripping
after each cut. -/
def truncAtStops (stops : List Str) (v : Str) : Str :=
  stops.foldl (fun val stop =>
    match findSubIdx stop val with
    | some idx => if 0 < idx then strip (val.take idx) else val
    | none => val) v

/-- Model of Python `str.split()` with no argument: whitespace-run split,
empty tokens dropped. -/
def splitWs (s : Str) : List Str :=
  (s.splitOnP isSpaceChar).filter (· ≠ [])

/-- Test for `re.search(r"\d{2,}", line)`: two consecutive digits occur. -/
def hasTwoConsecDigits : Str → Bool
  | a :: b :: rest => (isDigitChar a && isDigitChar b) || hasTwoConsecDigits (b :: rest)
  | _ => false

/-- First index where a run of at least two whitespace characters starts. -/
def findMultiSpaceIdx (s : Str) : Option Nat :=
  (List.range s.length).find? (fun i =>
    match s.drop i with
    | a :: b :: _ => isSpaceChar a && isSpaceChar b
    | _ => false)

/-- Fuel-bounded worker for `splitMultiSpace`. -/
def splitMultiSpaceAux : Nat → Str → List Str
  | 0, s => [s]
  | fuel + 1, s =>
    match findMultiSpaceIdx s with
    | none => [s]
    | some i =>
      (s.take i) :: splitMultiSpaceAux fuel ((s.drop i).dropWhile isSpaceChar)

/-- Model of `re.split(r"\s{2,}", s)`: split on runs of two or more
whitespace characters. -/
def splitMultiSpace (s : Str) : List Str :=
  splitMultiSpaceAux s.length s

/-- Data-row parse of one test-points line: at least six whitespace tokens,
a leading digit run in the first token, description from the per-line match
when present. -/
def parseTestPointLine (descMatch : Str → Option Str) (line : Str) :
    Option TestPointRow :=
  let parts := splitWs line
  if 6 ≤ parts.length then
    let digits := (parts.headD []).takeWhile isDigitChar
    if digits ≠ [] then
      let desc := match descMatch line with
        | some g => strip g
        | none => []
      some { seq := digitsToNat digits, description := desc, raw := line }
    else none
  else none

/-- Line loop over the test-points section: a header row (or a line starting
with `Seq`, `#` or a digit) arms parsing, after which qualifying rows are
collected; all underflow rows are skipped silently. -/
def parseTestPoints (descMatch : Str → Option Str) (tp_text : Str) :
    List TestPointRow :=
  ((strip tp_text).splitOn '\n').foldl
    (fun (acc : Bool × List TestPointRow) rawLine =>
      let line := strip rawLine
      if line = [] then acc
      else if containsSub "description".data (asciiLower line) ∧
          containsSub "standard".data (asciiLower line) then
        (true, acc.2)
      else
        let armed := acc.1 || "Seq".data.isPrefixOf line || "#".data.isPrefixOf line
          || (match line with | c :: _ => isDigitChar c | [] => false)
        if armed then
          match parseTestPointLine descMatch line with
          | some row => (armed, acc.2 ++ [row])
          | none => (armed, acc.2)
        else (armed, acc.2))
    (false, [])
  |>.2

/-- Line loop over the standards-used section. -/
def parseStandards (std_text : Str) : List StandardRow :=
  ((strip std_text).splitOn '\n').foldl
    (fun rows rawLine =>
      let line := strip rawLine
      if line = [] ∨ containsSub "company".data (asciiLower line) then rows
      else if containsSub "CAL TEC".data (asciiUpper line) ∨
          containsSub "INC".data (asciiUpper line) ∨ hasTwoConsecDigits line then
        let parts := splitMultiSpace line
        if 2 ≤ parts.length then
          rows ++ [{ company := some (strip (parts.headD [])), raw := line }]
        else rows ++ [{ company := none, raw := line }]
      else rows)
    []

/-- Serial-number placeholder values treated as absent. -/
def serialBlacklist : List Str :=
  ["calibration".data, "cal".data, "cal.".data, "n/a".data, "none".data, []]

/-- Model of `parse_cal_tec_cert`: an empty text yields the all-default
record; otherwise every capture is post-processed exactly as in the source
(strip, placeholder blacklist, stop-marker truncation, upper-casing, date
parsing with unparseable dates dropped) and every missing capture leaves the
field at its default. -/
def parse_cal_tec_cert (text : Str) (caps : RegexCaps) : CertData :=
  if text = [] then {}
  else
    { cert_number := (caps.cert_number.map strip).getD []
    , generated_date := (caps.generated_date.map strip).getD []
    , work_order := (caps.work_order.map strip).getD []
    , tool_id := (caps.tool_id.map strip).getD []
    , serial_number :=
        match caps.serial_number with
        | some v =>
          let v := strip v
          if serialBlacklist.contains (asciiLower v) then [] else v
        | none => []
    , manufacturer :=
        match caps.manufacturer with
        | some v => truncAtStops
            ["As Found".data, "As Left".data, "Cal Date".data, "Calibration".data]
            (strip v)
        | none => []
    , model_number :=
        match caps.model_number with
        | some v => truncAtStops ["Cal Date".data, "As Found".data, "Crib".data]
            (strip v)
        | none => []
    , tool_type :=
        match caps.tool_type with
        | some v => truncAtStops ["Crib".data, "Service".data, "Temp".data] (strip v)
        | none => []
    , description := (caps.description.map strip).getD []
    , cal_result :=
        match caps.cal_result with
        | some v => asciiUpper (strip v)
        | none => []
    , cal_due_date := caps.cal_due_date.bind (fun s => parseMDY (strip s))
    , cal_date := caps.cal_date.bind (fun s => parseMDY (strip s))
    , as_found := (caps.as_found.map (fun v => asciiUpper (strip v))).getD []
    , as_left := (caps.as_left.map (fun v => asciiUpper (strip v))).getD []
    , service_technician := (caps.service_technician.map strip).getD []
    , temperature := (caps.temperature.map strip).getD []
    , cal_interval := (caps.cal_interval.map strip).getD []
    , test_points :=
        match caps.tp_section with
        | some sec => parseTestPoints caps.descMatch sec
        | none => []
    , standards_used := (caps.std_section.map parseStandards).getD []
    , building := (caps.building.map strip).getD []
    , floor := (caps.floor.map strip).getD []
    , room := (caps.room.map strip).getD [] }

/-! ### Theorems -/


/-! ### Frame lemmas for the reconciliation steps -/

/-- Fields of the tool that the date-guard block never touches. -/
theorem updateToolDates_frame (t : Tool) (cd : CalDate) (due : Option CalDate) :
    (updateToolDates t cd due).status = t.status ∧
    (updateToolDates t cd due).schedule = t.schedule ∧
    (updateToolDates t cd due).custom_interval_days = t.custom_interval_days ∧
    (updateToolDates t cd due).serial_number = t.serial_number ∧
    (updateToolDates t cd due).manufacturer = t.manufacturer ∧
    (updateToolDates t cd due).model_number = t.model_number ∧
    (updateToolDates t cd due).description = t.description ∧
    (updateToolDates t cd due).tool_id_number = t.tool_id_number := by
  unfold updateToolDates recalculate_next_date
  repeat' split
  all_goals exact ⟨rfl, rfl, rfl, rfl, rfl, rfl, rfl, rfl⟩

/-- Fields of the tool that the metadata backfill never touches. -/
theorem backfillToolInfo_frame (t : Tool) (a b c d e : Str) :
    (backfillToolInfo t a b c d e).status = t.status ∧
    (backfillToolInfo t a b c d e).schedule = t.schedule ∧
    (backfillToolInfo t a b c d e).custom_interval_days = t.custom_interval_days ∧
    (backfillToolInfo t a b c d e).last_calibration_date = t.last_calibration_date ∧
    (backfillToolInfo t a b c d e).next_calibration_date = t.next_calibration_date := by
  unfold backfillToolInfo
  simp only []
  repeat' split
  all_goals exact ⟨rfl, rfl, rfl, rfl, rfl⟩

/-- Fields of the tool that the schedule update never touches. -/
theorem updateToolSchedule_frame (t : Tool) (i : Str) :
    (updateToolSchedule t i).status = t.status ∧
    (updateToolSchedule t i).last_calibration_date = t.last_calibration_date ∧
    (updateToolSchedule t i).next_calibration_date = t.next_calibration_date ∧
    (updateToolSchedule t i).custom_interval_days = t.custom_interval_days ∧
    (updateToolSchedule t i).serial_number = t.serial_number ∧
    (updateToolSchedule t i).manufacturer = t.manufacturer ∧
    (updateToolSchedule t i).model_number = t.model_number ∧
    (updateToolSchedule t i).description = t.description := by
  unfold updateToolSchedule
  split
  all_goals exact ⟨rfl, rfl, rfl, rfl, rfl, rfl, rfl, rfl⟩

/-- Fields of the tool that the status block never touches. -/
theorem applyResultStatus_frame (r : Str) (today : CalDate) (t : Tool) :
    (applyResultStatus r today t).last_calibration_date = t.last_calibration_date ∧
    (applyResultStatus r today t).next_calibration_date = t.next_calibration_date ∧
    (applyResultStatus r today t).schedule = t.schedule ∧
    (applyResultStatus r today t).custom_interval_days = t.custom_interval_days ∧
    (applyResultStatus r today t).serial_number = t.serial_number ∧
    (applyResultStatus r today t).manufacturer = t.manufacturer ∧
    (applyResultStatus r today t).model_number = t.model_number ∧
    (applyResultStatus r today t).description = t.description := by
  unfold applyResultStatus refresh_status
  repeat' split
  all_goals exact ⟨rfl, rfl, rfl, rfl, rfl, rfl, rfl, rfl⟩

/-- Last and next dates of the full update coincide with those of its
date-guard step. -/
theorem updateToolFromCert_dates (t : Tool) (cd : CalDate) (due : Option CalDate)
    (a b c d e i r : Str) (today : CalDate) :
    (updateToolFromCert t cd due a b c d e i r today).last_calibration_date
      = (updateToolDates t cd due).last_calibration_date ∧
    (updateToolFromCert t cd due a b c d e i r today).next_calibration_date
      = (updateToolDates t cd due).next_calibration_date := by
  unfold updateToolFromCert
  constructor
  · rw [(applyResultStatus_frame _ _ _).1, (updateToolSchedule_frame _ _).2.1,
      (backfillToolInfo_frame _ _ _ _ _ _).2.2.2.1]
  · rw [(applyResultStatus_frame _ _ _).2.1, (updateToolSchedule_frame _ _).2.2.1,
      (backfillToolInfo_frame _ _ _ _ _ _).2.2.2.2]

/-- Date-guard step when the guard fails: the tool is returned unchanged. -/
theorem updateToolDates_guard_fail (t : Tool) (cd : CalDate) (due : Option CalDate)
    (l : CalDate) (hl : t.last_calibration_date = some l)
    (hlt : dateLt l cd = false) : updateToolDates t cd due = t := by
  unfold updateToolDates
  rw [hl]
  simp [hlt]

/-- Date-guard step when the guard passes: the certificate date becomes the
last calibration date and the next date follows the due date when stated,
the recalculated schedule date otherwise. -/
theorem updateToolDates_guard_pass (t : Tool) (cd : CalDate) (due : Option CalDate)
    (h : (match t.last_calibration_date with
          | none => true
          | some l => dateLt l cd) = true) :
    (updateToolDates t cd due).last_calibration_date = some cd ∧
    (updateToolDates t cd due).next_calibration_date =
      (match due with
       | some dd => some dd
       | none => next_cal_date (some cd) t.schedule t.custom_interval_days) := by
  unfold updateToolDates
  simp only [h, if_true]
  cases due <;> simp [recalculate_next_date]

/-- C2: the tool's last calibration date is overwritten only when it is absent
or the certificate date is strictly later; with the guard failing both the
last and the next calibration date are left unchanged by the whole update,
and with the guard passing the certificate's due date (when stated) becomes
the next date, the schedule-derived date otherwise. -/
theorem tool_date_update_monotonic (t : Tool) (cd : CalDate) (due : Option CalDate)
    (a b c d e i r : Str) (today : CalDate) :
    (∀ l, t.last_calibration_date = some l → dateLt l cd = false →
      (updateToolFromCert t cd due a b c d e i r today).last_calibration_date
          = t.last_calibration_date ∧
      (updateToolFromCert t cd due a b c d e i r today).next_calibration_date
          = t.next_calibration_date) ∧
    ((t.last_calibration_date = none ∨
        ∃ l, t.last_calibration_date = some l ∧ dateLt l cd = true) →
      (updateToolFromCert t cd due a b c d e i r today).last_calibration_date
          = some cd ∧
      (∀ dd, due = some dd →
        (updateToolFromCert t cd due a b c d e i r today).next_calibration_date
            = some dd) ∧
      (due = none →
        (updateToolFromCert t cd due a b c d e i r today).next_calibration_date
            = next_cal_date (some cd) t.schedule t.custom_interval_days)) := by
  obtain ⟨h1, h2⟩ := updateToolFromCert_dates t cd due a b c d e i r today
  rw [h1, h2]
  constructor
  · intro l hl hlt
    rw [updateToolDates_guard_fail t cd due l hl hlt]
    exact ⟨rfl, rfl⟩
  · intro hpass
    have hguard : (match t.last_calibration_date with
        | none => true
        | some l => dateLt l cd) = true := by
      rcases hpass with h | ⟨l, hl, hlt⟩
      · rw [h]
      · rw [hl]; exact hlt
    obtain ⟨hlast, hnext⟩ := updateToolDates_guard_pass t cd due hguard
    refine ⟨hlast, ?_, ?_⟩
    · intro dd hdd
      subst hdd
      simpa using hnext
    · intro hn
      subst hn
      simpa using hnext

/-- Witness for C2 at the spec's concrete instance: a tool last calibrated
2024-09-11 is not regressed by a certificate dated 2023-01-01 (both dates
unchanged), while a fresh tool does take the certificate date. -/
theorem tool_date_update_monotonic_witness :
    ((updateToolFromCert
        { serial_number := "SN1".data, last_calibration_date := some ⟨2024, 9, 11⟩,
          next_calibration_date := some ⟨2025, 9, 11⟩ }
        ⟨2023, 1, 1⟩ none [] [] [] [] [] [] "pass".data ⟨2025, 1, 1⟩).last_calibration_date
      = some ⟨2024, 9, 11⟩ ∧
     (updateToolFromCert
        { serial_number := "SN1".data, last_calibration_date := some ⟨2024, 9, 11⟩,
          next_calibration_date := some ⟨2025, 9, 11⟩ }
        ⟨2023, 1, 1⟩ none [] [] [] [] [] [] "pass".data ⟨2025, 1, 1⟩).next_calibration_date
      = some ⟨2025, 9, 11⟩) ∧
    (updateToolFromCert { serial_number := "SN2".data } ⟨2023, 1, 1⟩
        (some ⟨2024, 1, 1⟩) [] [] [] [] [] [] "pass".data ⟨2025, 1, 1⟩).next_calibration_date
      = some ⟨2024, 1, 1⟩ := by
  constructor
  · have h := (tool_date_update_monotonic
      { serial_number := "SN1".data, last_calibration_date := some ⟨2024, 9, 11⟩,
        next_calibration_date := some ⟨2025, 9, 11⟩ }
      ⟨2023, 1, 1⟩ none [] [] [] [] [] [] "pass".data ⟨2025, 1, 1⟩).1
      ⟨2024, 9, 11⟩ rfl (by decide)
    exact ⟨h.1, h.2⟩
  · exact ((tool_date_update_monotonic { serial_number := "SN2".data } ⟨2023, 1, 1⟩
      (some ⟨2024, 1, 1⟩) [] [] [] [] [] [] "pass".data ⟨2025, 1, 1⟩).2
      (Or.inl rfl)).2.1 ⟨2024, 1, 1⟩ rfl
/-- Metadata projections of the full update coincide with those of its
backfill step. -/
theorem updateToolFromCert_meta (t : Tool) (cd : CalDate) (due : Option CalDate)
    (a b c d e i r : Str) (today : CalDate) :
    (updateToolFromCert t cd due a b c d e i r today).serial_number
      = (backfillToolInfo (updateToolDates t cd due) a b c d e).serial_number ∧
    (updateToolFromCert t cd due a b c d e i r today).manufacturer
      = (backfillToolInfo (updateToolDates t cd due) a b c d e).manufacturer ∧
    (updateToolFromCert t cd due a b c d e i r today).model_number
      = (backfillToolInfo (updateToolDates t cd due) a b c d e).model_number ∧
    (updateToolFromCert t cd due a b c d e i r today).description
      = (backfillToolInfo (updateToolDates t cd due) a b c d e).description := by
  unfold updateToolFromCert
  refine ⟨?_, ?_, ?_, ?_⟩
  · rw [(applyResultStatus_frame _ _ _).2.2.2.2.1, (updateToolSchedule_frame _ _).2.2.2.2.1]
  · rw [(applyResultStatus_frame _ _ _).2.2.2.2.2.1, (updateToolSchedule_frame _ _).2.2.2.2.2.1]
  · rw [(applyResultStatus_frame _ _ _).2.2.2.2.2.2.1,
      (updateToolSchedule_frame _ _).2.2.2.2.2.2.1]
  · rw [(applyResultStatus_frame _ _ _).2.2.2.2.2.2.2,
      (updateToolSchedule_frame _ _).2.2.2.2.2.2.2]

set_option maxHeartbeats 1600000 in
/-- Backfill behaviour per field: never overwrites a non-empty value, fills an
empty one from a non-empty certificate value. -/
theorem backfillToolInfo_spec (t : Tool) (a b c d e : Str) :
    ((t.serial_number ≠ [] → (backfillToolInfo t a b c d e).serial_number = t.serial_number) ∧
     (t.serial_number = [] → b ≠ [] → (backfillToolInfo t a b c d e).serial_number = b)) ∧
    ((t.manufacturer ≠ [] → (backfillToolInfo t a b c d e).manufacturer = t.manufacturer) ∧
     (t.manufacturer = [] → c ≠ [] → (backfillToolInfo t a b c d e).manufacturer = c)) ∧
    ((t.model_number ≠ [] → (backfillToolInfo t a b c d e).model_number = t.model_number) ∧
     (t.model_number = [] → d ≠ [] → (backfillToolInfo t a b c d e).model_number = d)) ∧
    ((t.description ≠ [] → (backfillToolInfo t a b c d e).description = t.description) ∧
     (t.description = [] → e ≠ [] → (backfillToolInfo t a b c d e).description = e)) := by
  unfold backfillToolInfo
  simp only []
  repeat' split
  all_goals simp_all
  all_goals tauto

/-- C6: reconciliation backfills serial number, manufacturer, model number and
description from the certificate only into empty fields; a non-empty tool
value for any of these fields is unchanged by the whole update. -/
theorem metadata_backfill_never_overwrites (t : Tool) (cd : CalDate)
    (due : Option CalDate) (a b c d e i r : Str) (today : CalDate) :
    ((t.serial_number ≠ [] →
      (updateToolFromCert t cd due a b c d e i r today).serial_number = t.serial_number) ∧
     (t.serial_number = [] → b ≠ [] →
      (updateToolFromCert t cd due a b c d e i r today).serial_number = b)) ∧
    ((t.manufacturer ≠ [] →
      (updateToolFromCert t cd due a b c d e i r today).manufacturer = t.manufacturer) ∧
     (t.manufacturer = [] → c ≠ [] →
      (updateToolFromCert t cd due a b c d e i r today).manufacturer = c)) ∧
    ((t.model_number ≠ [] →
      (updateToolFromCert t cd due a b c d e i r today).model_number = t.model_number) ∧
     (t.model_number = [] → d ≠ [] →
      (updateToolFromCert t cd due a b c d e i r today).model_number = d)) ∧
    ((t.description ≠ [] →
      (updateToolFromCert t cd due a b c d e i r today).description = t.description) ∧
     (t.description = [] → e ≠ [] →
      (updateToolFromCert t cd due a b c d e i r today).description = e)) := by
  obtain ⟨hs, hm, hmo, hd⟩ := updateToolFromCert_meta t cd due a b c d e i r today
  obtain ⟨-, -, -, f1, f2, f3, f4, -⟩ := updateToolDates_frame t cd due
  obtain ⟨bs, bm, bmo, bd⟩ := backfillToolInfo_spec (updateToolDates t cd due) a b c d e
  rw [hs, hm, hmo, hd]
  rw [f1] at bs
  rw [f2] at bm
  rw [f3] at bmo
  rw [f4] at bd
  exact ⟨bs, bm, bmo, bd⟩

/-- Witness for C6: a tool with a non-empty manufacturer keeps it against a
different certificate manufacturer, and an empty model number is filled. -/
theorem metadata_backfill_never_overwrites_witness :
    (updateToolFromCert
        { serial_number := "S6".data, manufacturer := "Acme".data }
        ⟨2024, 1, 1⟩ none [] [] "Other".data "M-9".data [] [] "pass".data
        ⟨2024, 6, 1⟩).manufacturer = "Acme".data ∧
    (updateToolFromCert
        { serial_number := "S6".data, manufacturer := "Acme".data }
        ⟨2024, 1, 1⟩ none [] [] "Other".data "M-9".data [] [] "pass".data
        ⟨2024, 6, 1⟩).model_number = "M-9".data := by
  have h := metadata_backfill_never_overwrites
    { serial_number := "S6".data, manufacturer := "Acme".data }
    ⟨2024, 1, 1⟩ none [] [] "Other".data "M-9".data [] [] "pass".data ⟨2024, 6, 1⟩
  exact ⟨(h.2.1.1 (by decide)).trans rfl, h.2.2.1.2 rfl (by decide)⟩
/-- C4 counterexample: the certificate-path schedule inference maps the
interval string `"5 years"` to the vendor default `"semiannual"`, not to
`"custom"` as claimed. -/
theorem schedule_inference_5_years_not_custom :
    determine_schedule_from_interval "5 years".data = "semiannual".data ∧
    determine_schedule_from_interval "5 years".data ≠ "custom".data := by
  exact ⟨by decide, by decide⟩

/-- C4 (amended): certificate-path inference maps "6 MONTHS" to semiannual and
every non-empty uninterpretable interval (no month/year keyword, e.g. "ASAP")
to the vendor default semiannual rather than the system default annual;
"N years" with N > 2 (e.g. "5 years") also falls back to semiannual there,
while the custom/N×365 mapping (1825 days for "5 years") belongs to the CSV
importer's `parse_schedule` / `parse_custom_days`. -/
theorem schedule_inference_amended :
    determine_schedule_from_interval "6 MONTHS".data = "semiannual".data ∧
    determine_schedule_from_interval "5 years".data = "semiannual".data ∧
    parse_schedule "5 years".data = "custom".data ∧
    parse_custom_days "5 years".data = some 1825 ∧
    (∀ s : Str, s ≠ [] →
      containsSub "month".data (asciiLower (strip s)) = false →
      containsSub "year".data (asciiLower (strip s)) = false →
      determine_schedule_from_interval s = "semiannual".data) := by
  refine ⟨by decide, by decide, by decide, by decide, ?_⟩
  intro s hs hm hy
  unfold determine_schedule_from_interval scheduleFromMonths scheduleFromYears
  simp [hs, hm, hy]

/-- Witness for C4 at the spec's unparseable interval: "ASAP" maps to the
vendor default "semiannual". -/
theorem schedule_inference_amended_witness :
    determine_schedule_from_interval "ASAP".data = "semiannual".data :=
  schedule_inference_amended.2.2.2.2 "ASAP".data (by decide) (by decide) (by decide)

/-- Schedule update on an empty interval string is the identity. -/
theorem updateToolSchedule_empty (t : Tool) : updateToolSchedule t [] = t := by
  unfold updateToolSchedule
  simp

/-- Schedule projection of the full update when the certificate carries no
interval string. -/
theorem updateToolFromCert_schedule_empty (t : Tool) (cd : CalDate)
    (due : Option CalDate) (a b c d e r : Str) (today : CalDate) :
    (updateToolFromCert t cd due a b c d e [] r today).schedule = t.schedule := by
  unfold updateToolFromCert
  rw [(applyResultStatus_frame _ _ _).2.2.1, updateToolSchedule_empty,
    (backfillToolInfo_frame _ _ _ _ _ _).2.1, (updateToolDates_frame _ _ _).2.1]

/-- Custom-interval projection of the full update: never modified. -/
theorem updateToolFromCert_custom (t : Tool) (cd : CalDate) (due : Option CalDate)
    (a b c d e i r : Str) (today : CalDate) :
    (updateToolFromCert t cd due a b c d e i r today).custom_interval_days
      = t.custom_interval_days := by
  unfold updateToolFromCert
  rw [(applyResultStatus_frame _ _ _).2.2.2.1, (updateToolSchedule_frame _ _).2.2.2.1,
    (backfillToolInfo_frame _ _ _ _ _ _).2.2.1, (updateToolDates_frame _ _ _).2.2.1]

/-- C5 counterexample input: a tool on an annual schedule with a consistent
next date. -/
def c5Tool : Tool :=
  { serial_number := "SN5".data, schedule := "annual".data,
    status := "active".data, last_calibration_date := some ⟨2024, 9, 11⟩,
    next_calibration_date := some ⟨2025, 9, 11⟩ }

/-- C5 counterexample result: reconciling an older certificate that carries
the interval string "6 MONTHS". -/
def c5After : Tool :=
  updateToolFromCert c5Tool ⟨2023, 1, 1⟩ none [] [] [] [] [] "6 MONTHS".data
    "pass".data ⟨2025, 1, 1⟩

/-- C5 counterexample: the schedule update from the certificate interval does
not recompute the next calibration date — afterwards the stored next date
differs from the value derived from last date + schedule. -/
theorem next_date_stale_after_schedule_update :
    c5After.schedule = "semiannual".data ∧
    c5After.last_calibration_date = some ⟨2024, 9, 11⟩ ∧
    c5After.next_calibration_date = some ⟨2025, 9, 11⟩ ∧
    next_cal_date c5After.last_calibration_date c5After.schedule
      c5After.custom_interval_days = some ⟨2025, 3, 11⟩ ∧
    c5After.next_calibration_date ≠
      next_cal_date c5After.last_calibration_date c5After.schedule
        c5After.custom_interval_days := by
  exact ⟨by decide, by decide, by decide, by decide, by decide⟩

/-- C5 (amended): the derivability invariant
`next_calibration_date = next_cal_date last schedule custom` is re-established
by reconciliation when the date guard fires and the certificate supplies
neither a due date nor an interval string; a certificate interval that changes
the schedule does not trigger recomputation, so the invariant can break (see
the counterexample). -/
theorem next_date_derivability_amended (t : Tool) (cd : CalDate)
    (a b c d e r : Str) (today : CalDate)
    (hguard : t.last_calibration_date = none ∨
      ∃ l, t.last_calibration_date = some l ∧ dateLt l cd = true) :
    (updateToolFromCert t cd none a b c d e [] r today).next_calibration_date =
      next_cal_date
        (updateToolFromCert t cd none a b c d e [] r today).last_calibration_date
        (updateToolFromCert t cd none a b c d e [] r today).schedule
        (updateToolFromCert t cd none a b c d e [] r today).custom_interval_days := by
  obtain ⟨hd1, hd2⟩ := updateToolFromCert_dates t cd none a b c d e [] r today
  have hguard' : (match t.last_calibration_date with
      | none => true
      | some l => dateLt l cd) = true := by
    rcases hguard with h | ⟨l, hl, hlt⟩
    · rw [h]
    · rw [hl]; exact hlt
  obtain ⟨hlast, hnext⟩ := updateToolDates_guard_pass t cd none hguard'
  rw [hd1, hd2, hlast, hnext, updateToolFromCert_schedule_empty,
    updateToolFromCert_custom]

/-- Witness for C5: a fresh tool (no stored dates) reconciled against a
certificate with no due date and no interval satisfies the derivability
invariant. -/
theorem next_date_derivability_amended_witness :
    (updateToolFromCert { serial_number := "W5".data } ⟨2024, 1, 1⟩ none
        [] [] [] [] [] [] "pass".data ⟨2024, 6, 1⟩).next_calibration_date =
      next_cal_date
        (updateToolFromCert { serial_number := "W5".data } ⟨2024, 1, 1⟩ none
          [] [] [] [] [] [] "pass".data ⟨2024, 6, 1⟩).last_calibration_date
        (updateToolFromCert { serial_number := "W5".data } ⟨2024, 1, 1⟩ none
          [] [] [] [] [] [] "pass".data ⟨2024, 6, 1⟩).schedule
        (updateToolFromCert { serial_number := "W5".data } ⟨2024, 1, 1⟩ none
          [] [] [] [] [] [] "pass".data ⟨2024, 6, 1⟩).custom_interval_days :=
  next_date_derivability_amended { serial_number := "W5".data } ⟨2024, 1, 1⟩
    [] [] [] [] [] "pass".data ⟨2024, 6, 1⟩ (Or.inl rfl)
/-- Behaviour of `refresh_status`: skipped for manually managed statuses and
absent next dates, otherwise the three-way date comparison. -/
theorem refresh_status_spec (today : CalDate) (t : Tool) :
    (manualStatuses.contains t.status = true → refresh_status today t = t) ∧
    (manualStatuses.contains t.status = false → t.next_calibration_date = none →
      refresh_status today t = t) ∧
    (manualStatuses.contains t.status = false →
      ∀ n, t.next_calibration_date = some n →
      (refresh_status today t).status =
        (if dateLt n today then "overdue".data
         else if daysBetween today n ≤ 30 then "due_soon".data
         else "active".data)) := by
  unfold refresh_status
  refine ⟨?_, ?_, ?_⟩
  · intro h
    rw [if_pos h]
  · intro h hn
    rw [if_neg (by rw [h]; exact Bool.false_ne_true), hn]
  · intro h n hn
    rw [if_neg (by rw [h]; exact Bool.false_ne_true), hn]
    simp only [apply_ite Tool.status]

/-- C7 counterexample input: a retired tool whose next date is long past. -/
def c7Tool : Tool :=
  { serial_number := "SN7".data, status := "retired".data,
    last_calibration_date := some ⟨2024, 1, 1⟩,
    next_calibration_date := some ⟨2020, 1, 1⟩ }

/-- C7 counterexample result: reconciling a passing certificate against it. -/
def c7After : Tool :=
  updateToolFromCert c7Tool ⟨2023, 1, 1⟩ none [] [] [] [] [] [] "pass".data
    ⟨2025, 1, 1⟩

/-- C7 counterexample: for a non-failing result on a retired tool whose next
calibration date is before today, the status stays "retired" instead of being
recomputed to "overdue" as the claim states. -/
theorem status_refresh_skips_retired :
    c7After.next_calibration_date = some ⟨2020, 1, 1⟩ ∧
    dateLt ⟨2020, 1, 1⟩ ⟨2025, 1, 1⟩ = true ∧
    c7After.status = "retired".data ∧
    c7After.status ≠ "overdue".data := by
  exact ⟨by decide, by decide, by decide, by decide⟩

/-- C7 (amended): a failing result forces status "out_of_cal" regardless of
dates; a non-failing result triggers the date-driven refresh — overdue /
due-soon (within 30 days) / active — provided the tool is not in a manually
managed status (backup, not_in_use, repurposed, retired) and has a next
calibration date after the date update, the status being left unchanged in
those two cases. -/
theorem status_update_amended (t : Tool) (cd : CalDate) (due : Option CalDate)
    (a b c d e i r : Str) (today : CalDate) :
    (r = "fail".data →
      (updateToolFromCert t cd due a b c d e i r today).status = "out_of_cal".data) ∧
    (r ≠ "fail".data → manualStatuses.contains t.status = true →
      (updateToolFromCert t cd due a b c d e i r today).status = t.status) ∧
    (r ≠ "fail".data → manualStatuses.contains t.status = false →
      ∀ n, (updateToolDates t cd due).next_calibration_date = some n →
      (updateToolFromCert t cd due a b c d e i r today).status =
        (if dateLt n today then "overdue".data
         else if daysBetween today n ≤ 30 then "due_soon".data
         else "active".data)) ∧
    (r ≠ "fail".data → manualStatuses.contains t.status = false →
      (updateToolDates t cd due).next_calibration_date = none →
      (updateToolFromCert t cd due a b c d e i r today).status = t.status) := by
  have hstat : (updateToolSchedule
      (backfillToolInfo (updateToolDates t cd due) a b c d e) i).status = t.status := by
    rw [(updateToolSchedule_frame _ _).1, (backfillToolInfo_frame _ _ _ _ _ _).1,
      (updateToolDates_frame _ _ _).1]
  have hnext : (updateToolSchedule
      (backfillToolInfo (updateToolDates t cd due) a b c d e) i).next_calibration_date
      = (updateToolDates t cd due).next_calibration_date := by
    rw [(updateToolSchedule_frame _ _).2.2.1,
      (backfillToolInfo_frame _ _ _ _ _ _).2.2.2.2]
  have hdef : updateToolFromCert t cd due a b c d e i r today
      = applyResultStatus r today (updateToolSchedule
          (backfillToolInfo (updateToolDates t cd due) a b c d e) i) := rfl
  obtain ⟨r1, r2, r3⟩ := refresh_status_spec today (updateToolSchedule
    (backfillToolInfo (updateToolDates t cd due) a b c d e) i)
  refine ⟨?_, ?_, ?_, ?_⟩
  · intro hr
    rw [hdef]
    unfold applyResultStatus
    simp [hr]
  · intro hr hm
    rw [hdef]
    unfold applyResultStatus
    rw [if_neg hr, r1 (by rw [hstat]; exact hm)]
    exact hstat
  · intro hr hm n hn
    rw [hdef]
    unfold applyResultStatus
    rw [if_neg hr]
    exact r3 (by rw [hstat]; exact hm) n (by rw [hnext]; exact hn)
  · intro hr hm hn
    rw [hdef]
    unfold applyResultStatus
    rw [if_neg hr, r2 (by rw [hstat]; exact hm) (by rw [hnext]; exact hn)]
    exact hstat

/-- Witness for C7: a failing certificate forces an active tool out of
calibration, and a passing one on an active tool with a past due date yields
"overdue". -/
theorem status_update_amended_witness :
    (updateToolFromCert { serial_number := "Sa".data, status := "active".data }
        ⟨2024, 1, 1⟩ (some ⟨2024, 7, 1⟩) [] [] [] [] [] [] "fail".data
        ⟨2025, 1, 1⟩).status = "out_of_cal".data ∧
    (updateToolFromCert { serial_number := "Sb".data, status := "active".data }
        ⟨2024, 1, 1⟩ (some ⟨2024, 7, 1⟩) [] [] [] [] [] [] "pass".data
        ⟨2025, 1, 1⟩).status = "overdue".data := by
  constructor
  · exact (status_update_amended { serial_number := "Sa".data, status := "active".data }
      ⟨2024, 1, 1⟩ (some ⟨2024, 7, 1⟩) [] [] [] [] [] [] "fail".data ⟨2025, 1, 1⟩).1 rfl
  · have h := (status_update_amended
      { serial_number := "Sb".data, status := "active".data }
      ⟨2024, 1, 1⟩ (some ⟨2024, 7, 1⟩) [] [] [] [] [] [] "pass".data ⟨2025, 1, 1⟩).2.2.1
      (by decide) (by decide) ⟨2024, 7, 1⟩ (by decide)
    exact h.trans (by decide)
/-- C8 counterexample input: a matched tool with a non-empty sticker. -/
def c8Tool : Tool := { serial_number := "SN8".data, sticker_id := "A1".data }

/-- C8 counterexample: a CSV row whose certificate column holds a new valid
value replaces the tool's existing non-empty sticker — the importer does
overwrite this field. -/
theorem csv_sticker_overwrite :
    c8Tool.sticker_id = "A1".data ∧
    (csvUpdateExisting c8Tool [] "B2".data []).sticker_id = "B2".data ∧
    (csvUpdateExisting c8Tool [] "B2".data []).sticker_id ≠ c8Tool.sticker_id := by
  exact ⟨by decide, by decide, by decide⟩

set_option maxHeartbeats 1600000 in
/-- Per-field behaviour of the CSV update branch for an existing tool. -/
theorem csvUpdateExisting_spec (t : Tool) (notes cert person : Str) :
    ((notes = [] ∨ containsSub notes t.comments = true →
      (csvUpdateExisting t notes cert person).comments = t.comments) ∧
     (notes ≠ [] → containsSub notes t.comments = false →
      (csvUpdateExisting t notes cert person).comments =
        t.comments ++ (if t.comments ≠ [] then ['\n'] else []) ++ notes)) ∧
    ((t.owner ≠ [] → (csvUpdateExisting t notes cert person).owner = t.owner) ∧
     (t.owner = [] → person ≠ [] →
      (csvUpdateExisting t notes cert person).owner = person)) ∧
    ((cert = [] ∨
        ["x".data, "missing".data, "not checked".data].contains (asciiLower cert) = true ∨
        containsSub cert t.sticker_id = true →
      (csvUpdateExisting t notes cert person).sticker_id = t.sticker_id) ∧
     (cert ≠ [] →
      ["x".data, "missing".data, "not checked".data].contains (asciiLower cert) = false →
      containsSub cert t.sticker_id = false →
      (csvUpdateExisting t notes cert person).sticker_id = cert)) ∧
    ((csvUpdateExisting t notes cert person).serial_number = t.serial_number ∧
     (csvUpdateExisting t notes cert person).log_number = t.log_number ∧
     (csvUpdateExisting t notes cert person).manufacturer = t.manufacturer ∧
     (csvUpdateExisting t notes cert person).model_number = t.model_number ∧
     (csvUpdateExisting t notes cert person).description = t.description ∧
     (csvUpdateExisting t notes cert person).schedule = t.schedule ∧
     (csvUpdateExisting t notes cert person).custom_interval_days = t.custom_interval_days ∧
     (csvUpdateExisting t notes cert person).status = t.status ∧
     (csvUpdateExisting t notes cert person).last_calibration_date = t.last_calibration_date ∧
     (csvUpdateExisting t notes cert person).next_calibration_date = t.next_calibration_date) := by
  unfold csvUpdateExisting
  simp only []
  repeat' split
  all_goals simp_all
  all_goals tauto

/-- C8: the CSV importer matches existing tools by exact serial equality; on a
match it appends only notes not already contained in the comments, backfills
the owner only when empty, and leaves every other tool field unchanged —
except the sticker, which is overwritten by any valid new certificate value
(see the counterexample); the amended claim records that exception. -/
theorem csv_update_amended (t : Tool) (notes cert person : Str) :
    (∀ (tools : List Tool) (serial : Str) (u : Tool),
      csvFindExisting serial tools = some u → u.serial_number = serial) ∧
    ((notes = [] ∨ containsSub notes t.comments = true →
      (csvUpdateExisting t notes cert person).comments = t.comments) ∧
     (notes ≠ [] → containsSub notes t.comments = false →
      (csvUpdateExisting t notes cert person).comments =
        t.comments ++ (if t.comments ≠ [] then ['\n'] else []) ++ notes)) ∧
    ((t.owner ≠ [] → (csvUpdateExisting t notes cert person).owner = t.owner) ∧
     (t.owner = [] → person ≠ [] →
      (csvUpdateExisting t notes cert person).owner = person)) ∧
    ((cert = [] ∨
        ["x".data, "missing".data, "not checked".data].contains (asciiLower cert) = true ∨
        containsSub cert t.sticker_id = true →
      (csvUpdateExisting t notes cert person).sticker_id = t.sticker_id)) ∧
    ((csvUpdateExisting t notes cert person).serial_number = t.serial_number ∧
     (csvUpdateExisting t notes cert person).status = t.status ∧
     (csvUpdateExisting t notes cert person).last_calibration_date = t.last_calibration_date ∧
     (csvUpdateExisting t notes cert person).next_calibration_date = t.next_calibration_date ∧
     (csvUpdateExisting t notes cert person).schedule = t.schedule) := by
  obtain ⟨hc, ho, hs, hf⟩ := csvUpdateExisting_spec t notes cert person
  obtain ⟨f1, -, -, -, -, f6, -, f8, f9, f10⟩ := hf
  refine ⟨?_, hc, ho, hs.1, f1, f8, f9, f10, f6⟩
  intro tools serial u hu
  have := List.find?_some hu
  simpa using this

/-- Witness for C8: duplicate notes are not re-appended, an empty owner is
backfilled, and a contained sticker value is kept. -/
theorem csv_update_amended_witness :
    (csvUpdateExisting
        { serial_number := "SN9".data, comments := "old note".data,
          sticker_id := "QA-12".data }
        "note".data "QA-1".data "Kim".data).comments = "old note".data ∧
    (csvUpdateExisting
        { serial_number := "SN9".data, comments := "old note".data,
          sticker_id := "QA-12".data }
        "note".data "QA-1".data "Kim".data).owner = "Kim".data ∧
    (csvUpdateExisting
        { serial_number := "SN9".data, comments := "old note".data,
          sticker_id := "QA-12".data }
        "note".data "QA-1".data "Kim".data).sticker_id = "QA-12".data := by
  have h := csv_update_amended
    { serial_number := "SN9".data, comments := "old note".data,
      sticker_id := "QA-12".data }
    "note".data "QA-1".data "Kim".data
  exact ⟨(h.2.1.1 (Or.inr (by decide))).trans rfl,
    h.2.2.1.2 rfl (by decide),
    (h.2.2.2.1 (Or.inr (Or.inr (by decide)))).trans rfl⟩
/-- Structure of the range-building loop on a non-empty, strictly increasing
list of boundary indices all below `total`: the range starts are exactly the
boundary indices, consecutive ranges are contiguous, every range is non-empty
and in bounds, the last range ends at the final page, every page from any
boundary onwards is covered, and the ranges are pairwise disjoint. -/
theorem buildRanges_spec (starts : List Nat) (total : Nat)
    (hne : starts ≠ []) (hsort : List.Pairwise (· < ·) starts)
    (hlt : ∀ x ∈ starts, x < total) :
    (buildRanges starts total).map Prod.fst = starts ∧
    List.Chain' (fun r1 r2 => r2.1 = r1.2 + 1) (buildRanges starts total) ∧
    (∀ r ∈ buildRanges starts total, r.1 ≤ r.2 ∧ r.2 < total) ∧
    (buildRanges starts total).getLast?.map Prod.snd = some (total - 1) ∧
    (∀ p, (∃ x ∈ starts, x ≤ p) → p < total →
      ∃ r ∈ buildRanges starts total, r.1 ≤ p ∧ p ≤ r.2) ∧
    List.Pairwise (fun r1 r2 => r1.2 < r2.1) (buildRanges starts total) := by
  induction starts with
  | nil => exact absurd rfl hne
  | cons s rest ih =>
    cases rest with
    | nil =>
      have hs : s < total := hlt s (List.mem_cons_self s [])
      have htot : 1 ≤ total := Nat.one_le_iff_ne_zero.mpr (by omega)
      refine ⟨rfl, ?_, ?_, rfl, ?_, ?_⟩
      · simp [buildRanges]
      · intro r hr
        simp only [buildRanges, List.mem_singleton] at hr
        subst hr
        exact ⟨by omega, by omega⟩
      · intro p hex hp
        refine ⟨(s, total - 1), by simp [buildRanges], ?_, by omega⟩
        obtain ⟨x, hx, hxp⟩ := hex
        simp only [List.mem_singleton] at hx
        omega
      · simp [buildRanges]
    | cons s' rest' =>
      have hss' : s < s' := List.rel_of_pairwise_cons hsort (List.mem_cons_self s' rest')
      have hlt' : ∀ x ∈ s' :: rest', x < total := fun x hx =>
        hlt x (List.mem_cons_of_mem s hx)
      obtain ⟨ihmap, ihchain, ihbounds, ihlast, ihcover, ihdisj⟩ :=
        ih (List.cons_ne_nil s' rest') hsort.of_cons hlt'
      have hbr : buildRanges (s :: s' :: rest') total
          = (s, s' - 1) :: buildRanges (s' :: rest') total := rfl
      have hhead : (buildRanges (s' :: rest') total).head?.map Prod.fst = some s' := by
        rw [← List.head?_map, ihmap]
        rfl
      refine ⟨?_, ?_, ?_, ?_, ?_, ?_⟩
      · rw [hbr, List.map_cons, ihmap]
      · rw [hbr, List.chain'_cons']
        refine ⟨?_, ihchain⟩
        intro y hy
        have hy' : (buildRanges (s' :: rest') total).head? = some y := hy
        rw [hy'] at hhead
        have hy1 : y.1 = s' := by simpa using hhead
        simp only [hy1]
        omega
      · rw [hbr]
        intro r hr
        rcases List.mem_cons.mp hr with h | h
        · subst h
          have hs'total : s' < total := hlt' s' (List.mem_cons_self s' rest')
          exact ⟨by omega, by omega⟩
        · exact ihbounds r h
      · rw [hbr]
        cases hb : buildRanges (s' :: rest') total with
        | nil =>
          rw [hb] at ihlast
          simp at ihlast
        | cons rr ll =>
          rw [hb] at ihlast
          rw [List.getLast?_cons_cons]
          exact ihlast
      · intro p hex hp
        obtain ⟨x, hx, hxp⟩ := hex
        by_cases hps' : s' ≤ p
        · obtain ⟨r, hr, hr1, hr2⟩ := ihcover p ⟨s', List.mem_cons_self s' rest', hps'⟩ hp
          exact ⟨r, by rw [hbr]; exact List.mem_cons_of_mem _ hr, hr1, hr2⟩
        · have hsp : s ≤ p := by
            rcases List.mem_cons.mp hx with h | h
            · omega
            · have : s' ≤ x := by
                rcases List.mem_cons.mp h with h' | h'
                · omega
                · have := List.rel_of_pairwise_cons hsort.of_cons h'
                  omega
              omega
          exact ⟨(s, s' - 1), by rw [hbr]; exact List.mem_cons_self _ _, hsp, by omega⟩
      · rw [hbr]
        refine List.Pairwise.cons ?_ ihdisj
        intro r hr
        have hr1 : r.1 ∈ s' :: rest' := by
          rw [← ihmap]
          exact List.mem_map_of_mem Prod.fst hr
        have : s' ≤ r.1 := by
          rcases List.mem_cons.mp hr1 with h | h
          · omega
          · have := List.rel_of_pairwise_cons hsort.of_cons h
            omega
        omega

/-- Boundary-page indices are strictly increasing and within the document. -/
theorem certStartPages_sorted (pages : List Str) :
    List.Pairwise (· < ·) (certStartPages pages) ∧
    ∀ x ∈ certStartPages pages, x < pages.length := by
  constructor
  · exact (List.pairwise_lt_range pages.length).filter _
  · intro x hx
    have := (List.mem_filter.mp hx).1
    exact List.mem_range.mp this

/-- C1 (amended): the boundary detector returns an ordered list of disjoint,
contiguous page ranges; a zero-page document yields the empty list, a document
with no boundary page yields one range spanning the whole document, and with
boundary pages present the ranges start at the first boundary page, end at the
last page, and cover every page from the first boundary onward — pages before
the first boundary are not covered (see the counterexample). -/
theorem split_pdf_ranges_spec (pages : List Str) :
    (pages = [] → split_pdf_into_certificates pages = []) ∧
    (pages ≠ [] → certStartPages pages = [] →
      split_pdf_into_certificates pages = [(0, pages.length - 1)]) ∧
    (∀ s rest, certStartPages pages = s :: rest →
      (split_pdf_into_certificates pages).map Prod.fst = s :: rest ∧
      List.Chain' (fun r1 r2 => r2.1 = r1.2 + 1) (split_pdf_into_certificates pages) ∧
      (∀ r ∈ split_pdf_into_certificates pages, r.1 ≤ r.2 ∧ r.2 < pages.length) ∧
      (split_pdf_into_certificates pages).getLast?.map Prod.snd
        = some (pages.length - 1) ∧
      (∀ p, s ≤ p → p < pages.length →
        ∃ r ∈ split_pdf_into_certificates pages, r.1 ≤ p ∧ p ≤ r.2) ∧
      List.Pairwise (fun r1 r2 => r1.2 < r2.1) (split_pdf_into_certificates pages)) := by
  refine ⟨?_, ?_, ?_⟩
  · intro h
    subst h
    rfl
  · intro hne hstarts
    unfold split_pdf_into_certificates
    rw [if_neg (by simpa using hne), hstarts]
    rfl
  · intro s rest hstarts
    have hlen : pages.length ≠ 0 := by
      intro h0
      rw [certStartPages, h0] at hstarts
      cases hstarts
    have hsplit : split_pdf_into_certificates pages
        = buildRanges (s :: rest) pages.length := by
      unfold split_pdf_into_certificates
      rw [if_neg hlen, hstarts, if_neg (List.cons_ne_nil s rest)]
    obtain ⟨hsort, hbound⟩ := certStartPages_sorted pages
    rw [hstarts] at hsort hbound
    obtain ⟨m, c, b, l, cov, dj⟩ :=
      buildRanges_spec (s :: rest) pages.length (List.cons_ne_nil s rest) hsort hbound
    rw [hsplit]
    exact ⟨m, c, b, l,
      fun p hs hp => cov p ⟨s, List.mem_cons_self s rest, hs⟩ hp, dj⟩

/-- C1 counterexample input: a 12-page document whose boundary pages are
2, 5 and 9 (pages carrying two certificate-start keywords). -/
def c1Pages : List Str :=
  ["page".data, "page".data, "cert #cert#".data, "page".data, "page".data,
   "cert #cert#".data, "page".data, "page".data, "page".data,
   "cert #cert#".data, "page".data, "page".data]

/-- C1 counterexample: for the 12-page document with boundary pages
`[2, 5, 9]` the detector returns the three ranges `[2-4], [5-8], [9-11]` —
not the four claimed ranges — and pages 0 and 1 are covered by no range. -/
theorem split_pdf_boundary_2_5_9_drops_prefix :
    c1Pages.length = 12 ∧
    certStartPages c1Pages = [2, 5, 9] ∧
    split_pdf_into_certificates c1Pages = [(2, 4), (5, 8), (9, 11)] ∧
    split_pdf_into_certificates c1Pages ≠ [(0, 1), (2, 4), (5, 8), (9, 11)] ∧
    (¬ ∃ r ∈ split_pdf_into_certificates c1Pages, r.1 ≤ 0 ∧ 0 ≤ r.2) := by
  exact ⟨by decide, by decide, by decide, by decide, by decide⟩

/-- Witness for C1: on a one-page document with no boundary page the detector
returns the single full range, and on a two-page document whose first page is
a boundary the single range covers the whole document. -/
theorem split_pdf_ranges_spec_witness :
    split_pdf_into_certificates ["page".data] = [(0, 0)] ∧
    (∃ r ∈ split_pdf_into_certificates ["cert #cert#".data, "page".data],
      r.1 ≤ 1 ∧ 1 ≤ r.2) := by
  constructor
  · exact (split_pdf_ranges_spec ["page".data]).2.1 (by decide) (by decide)
  · exact ((split_pdf_ranges_spec ["cert #cert#".data, "page".data]).2.2
      0 [] (by decide)).2.2.2.2.1 1 (by decide) (by decide)
/-- C3: the matcher's rule chain runs in strict priority order: when some tool
exactly matches the certificate's equipment id (rule 1), the result is that
rule-1 match — in particular Tool A wins over a Tool B matching only by serial
(rule 4); moreover the containment rules fire only above their length gates
(3 characters for the equipment id, 4 for the serial). -/
theorem matcher_rule_precedence_and_gating :
    (∀ (cert_serial cert_tool_id : Str) (tools : List Tool) (A B : Tool),
      A ∈ tools →
      asciiLower A.tool_id_number = asciiLower (strip cert_tool_id) →
      strip cert_tool_id ≠ [] →
      B ∈ tools →
      asciiLower B.serial_number = asciiLower (strip cert_serial) →
      (∀ u ∈ tools,
        asciiLower u.tool_id_number = asciiLower (strip cert_tool_id) → u = A) →
      match_cert_to_tool cert_serial cert_tool_id tools
        = some (A, .equipment_id (strip cert_tool_id))) ∧
    (∀ (cs ct : Str) (tools : List Tool) (t : Tool) (v : Str),
      match_cert_to_tool cs ct tools = some (t, .equipment_id_contains v) →
      v = strip ct ∧ 3 ≤ v.length) ∧
    (∀ (cs ct : Str) (tools : List Tool) (t : Tool) (v : Str),
      match_cert_to_tool cs ct tools = some (t, .serial_contains v) →
      v = strip cs ∧ 4 ≤ v.length) := by
  refine ⟨?_, ?_, ?_⟩
  · intro cs ct tools A B hA hAid hct hB hBser huniq
    have h1 : matchRule1 (strip ct) tools = some A := by
      unfold matchRule1
      rw [if_neg hct]
      cases hf : tools.find?
          (fun t => asciiLower t.tool_id_number == asciiLower (strip ct)) with
      | none =>
        exfalso
        have hsome : (tools.find?
            (fun t => asciiLower t.tool_id_number == asciiLower (strip ct))).isSome := by
          exact List.find?_isSome.mpr ⟨A, hA, by rw [hAid]; exact beq_self_eq_true _⟩
        rw [hf] at hsome
        cases hsome
      | some u =>
        have hpred := List.find?_some hf
        have humem := List.mem_of_find?_eq_some hf
        rw [huniq u humem (eq_of_beq hpred)]
    unfold match_cert_to_tool
    simp only []
    rw [h1]
  · intro cs ct tools t v h
    unfold match_cert_to_tool at h
    simp only [] at h
    cases h1 : matchRule1 (strip ct) tools with
    | some u => rw [h1] at h; simp at h
    | none =>
    rw [h1] at h
    cases h2 : matchRule2 (strip ct) tools with
    | some u => rw [h2] at h; simp at h
    | none =>
    rw [h2] at h
    cases h3 : matchRule3 (strip ct) tools with
    | some u => rw [h3] at h; simp at h
    | none =>
    rw [h3] at h
    cases h4 : matchRule4 (strip cs) tools with
    | some u => rw [h4] at h; simp at h
    | none =>
    rw [h4] at h
    cases h5 : matchRule5 (strip ct) tools with
    | some u =>
      rw [h5] at h
      simp only [Option.some.injEq, Prod.mk.injEq, MatchMethod.equipment_id_contains.injEq] at h
      refine ⟨h.2.symm, ?_⟩
      unfold matchRule5 at h5
      split at h5
      · cases h5
      · next hcond =>
        push_neg at hcond
        rw [← h.2]
        exact hcond.2
    | none =>
    rw [h5] at h
    cases h6 : matchRule6 (strip cs) tools with
    | some u => rw [h6] at h; simp at h
    | none => rw [h6] at h; cases h
  · intro cs ct tools t v h
    unfold match_cert_to_tool at h
    simp only [] at h
    cases h1 : matchRule1 (strip ct) tools with
    | some u => rw [h1] at h; simp at h
    | none =>
    rw [h1] at h
    cases h2 : matchRule2 (strip ct) tools with
    | some u => rw [h2] at h; simp at h
    | none =>
    rw [h2] at h
    cases h3 : matchRule3 (strip ct) tools with
    | some u => rw [h3] at h; simp at h
    | none =>
    rw [h3] at h
    cases h4 : matchRule4 (strip cs) tools with
    | some u => rw [h4] at h; simp at h
    | none =>
    rw [h4] at h
    cases h5 : matchRule5 (strip ct) tools with
    | some u => rw [h5] at h; simp at h
    | none =>
    rw [h5] at h
    cases h6 : matchRule6 (strip cs) tools with
    | some u =>
      rw [h6] at h
      simp only [Option.some.injEq, Prod.mk.injEq, MatchMethod.serial_contains.injEq] at h
      refine ⟨h.2.symm, ?_⟩
      unfold matchRule6 at h6
      split at h6
      · cases h6
      · next hcond =>
        push_neg at hcond
        rw [← h.2]
        exact hcond.2
    | none => rw [h6] at h; cases h

/-- Witness for C3: with Tool A carrying tool-id 123 and Tool B carrying the
certificate's serial number, a certificate with equipment id 123 and B's
serial matches A by rule 1 even though B precedes A in the store. -/
theorem matcher_rule_precedence_and_gating_witness :
    match_cert_to_tool "SN99".data "123".data
      [{ serial_number := "SN99".data, log_number := "L2".data },
       { serial_number := "SA".data, log_number := "L1".data, tool_id_number := "123".data }]
      = some ({ serial_number := "SA".data, log_number := "L1".data, tool_id_number := "123".data }, .equipment_id "123".data) := by
  have h := matcher_rule_precedence_and_gating.1 "SN99".data "123".data
    [{ serial_number := "SN99".data, log_number := "L2".data },
     { serial_number := "SA".data, log_number := "L1".data, tool_id_number := "123".data }]
    { serial_number := "SA".data, log_number := "L1".data, tool_id_number := "123".data }
    { serial_number := "SN99".data, log_number := "L2".data }
    (by decide) (by decide) (by decide) (by decide) (by decide) (by decide)
  exact h
/-- Lowercasing keeps whitespace-ness of a character unchanged. -/
theorem isSpaceChar_lowerChar (c : Char) :
    isSpaceChar (lowerChar c) = isSpaceChar c := by
  have htab : ∀ p ∈ lowerTable, isSpaceChar p.1 = false ∧ isSpaceChar p.2 = false := by
    decide
  unfold lowerChar
  cases h : lowerTable.find? (fun p => p.1 == c) with
  | none => rfl
  | some p =>
    have hmem := List.mem_of_find?_eq_some h
    have hpred := List.find?_some h
    have hc : p.1 = c := by simpa using hpred
    rcases htab p hmem with ⟨hp1, hp2⟩
    rw [hp2, ← hc, hp1]

/-- Lowercasing commutes with stripping. -/
theorem asciiLower_strip (s : Str) : asciiLower (strip s) = strip (asciiLower s) := by
  have hcomp : (isSpaceChar ∘ lowerChar) = isSpaceChar := by
    funext c
    exact isSpaceChar_lowerChar c
  simp only [asciiLower, strip, ← List.map_reverse, List.dropWhile_map, hcomp]

/-- Strings with the same lowercase image have the same length. -/
theorem lowEq_length {x y : Str} (h : asciiLower x = asciiLower y) :
    x.length = y.length := by
  have := congrArg List.length h
  simpa [asciiLower] using this

/-- Strings with the same lowercase image are empty together. -/
theorem lowEq_empty_iff {x y : Str} (h : asciiLower x = asciiLower y) :
    x = [] ↔ y = [] := by
  rw [← List.length_eq_zero, ← List.length_eq_zero, lowEq_length h]

/-- Rule 1 depends on the certificate id only through its lowercase image. -/
theorem matchRule1_congr (x y : Str) (tools : List Tool)
    (h : asciiLower x = asciiLower y) : matchRule1 x tools = matchRule1 y tools := by
  unfold matchRule1
  by_cases hx : x = []
  · rw [if_pos hx, if_pos ((lowEq_empty_iff h).mp hx)]
  · rw [if_neg hx, if_neg (fun hy => hx ((lowEq_empty_iff h).mpr hy))]
    congr 1
    funext t
    rw [h]

/-- Rule 2 depends on the certificate id only through its lowercase image. -/
theorem matchRule2_congr (x y : Str) (tools : List Tool)
    (h : asciiLower x = asciiLower y) : matchRule2 x tools = matchRule2 y tools := by
  unfold matchRule2
  by_cases hx : x = []
  · rw [if_pos hx, if_pos ((lowEq_empty_iff h).mp hx)]
  · rw [if_neg hx, if_neg (fun hy => hx ((lowEq_empty_iff h).mpr hy))]
    congr 1
    funext t
    rw [h]

/-- Rule 3 depends on the certificate id only through its lowercase image. -/
theorem matchRule3_congr (x y : Str) (tools : List Tool)
    (h : asciiLower x = asciiLower y) : matchRule3 x tools = matchRule3 y tools := by
  unfold matchRule3
  by_cases hx : x = []
  · rw [if_pos hx, if_pos ((lowEq_empty_iff h).mp hx)]
  · rw [if_neg hx, if_neg (fun hy => hx ((lowEq_empty_iff h).mpr hy))]
    congr 1
    funext t
    rw [h]

/-- Rule 4 depends on the certificate serial only through its lowercase image. -/
theorem matchRule4_congr (x y : Str) (tools : List Tool)
    (h : asciiLower x = asciiLower y) : matchRule4 x tools = matchRule4 y tools := by
  unfold matchRule4
  by_cases hx : x = []
  · rw [if_pos hx, if_pos ((lowEq_empty_iff h).mp hx)]
  · rw [if_neg hx, if_neg (fun hy => hx ((lowEq_empty_iff h).mpr hy))]
    congr 1
    funext t
    rw [h]

/-- Rule 5 depends on the certificate id only through its lowercase image. -/
theorem matchRule5_congr (x y : Str) (tools : List Tool)
    (h : asciiLower x = asciiLower y) : matchRule5 x tools = matchRule5 y tools := by
  unfold matchRule5
  have hlen := lowEq_length h
  by_cases hx : x = [] ∨ x.length < 3
  · have hy : y = [] ∨ y.length < 3 := by
      rcases hx with h1 | h1
      · exact Or.inl ((lowEq_empty_iff h).mp h1)
      · exact Or.inr (hlen ▸ h1)
    rw [if_pos hx, if_pos hy]
  · have hy : ¬(y = [] ∨ y.length < 3) := by
      intro hc
      rcases hc with h1 | h1
      · exact hx (Or.inl ((lowEq_empty_iff h).mpr h1))
      · exact hx (Or.inr (hlen ▸ h1))
    rw [if_neg hx, if_neg hy]
    congr 1
    funext t
    unfold icontains
    rw [h]

/-- Rule 6 depends on the certificate serial only through its lowercase image. -/
theorem matchRule6_congr (x y : Str) (tools : List Tool)
    (h : asciiLower x = asciiLower y) : matchRule6 x tools = matchRule6 y tools := by
  unfold matchRule6
  have hlen := lowEq_length h
  by_cases hx : x = [] ∨ x.length < 4
  · have hy : y = [] ∨ y.length < 4 := by
      rcases hx with h1 | h1
      · exact Or.inl ((lowEq_empty_iff h).mp h1)
      · exact Or.inr (hlen ▸ h1)
    rw [if_pos hx, if_pos hy]
  · have hy : ¬(y = [] ∨ y.length < 4) := by
      intro hc
      rcases hc with h1 | h1
      · exact hx (Or.inl ((lowEq_empty_iff h).mpr h1))
      · exact hx (Or.inr (hlen ▸ h1))
    rw [if_neg hx, if_neg hy]
    congr 1
    funext t
    unfold icontains
    rw [h]

/-- The four identifier fields the matcher reads agree up to letter case. -/
def toolIdsLowEq (t t' : Tool) : Prop :=
  asciiLower t.tool_id_number = asciiLower t'.tool_id_number ∧
  asciiLower t.sticker_id = asciiLower t'.sticker_id ∧
  asciiLower t.log_number = asciiLower t'.log_number ∧
  asciiLower t.serial_number = asciiLower t'.serial_number

/-- Transfer of `find?` along a pointwise relation under which the two
predicates agree. -/
theorem find?_rel_of_forall2 {α β : Type} {R : α → β → Prop}
    {p : α → Bool} {q : β → Bool} {l₁ : List α} {l₂ : List β}
    (hf : List.Forall₂ R l₁ l₂) (hpq : ∀ a b, R a b → p a = q b) :
    Option.Rel R (l₁.find? p) (l₂.find? q) := by
  induction hf with
  | nil => exact .none
  | cons hab htail ih =>
    next a b l₁' l₂' =>
    by_cases hq : q b = true
    · rw [List.find?_cons_of_pos _ (by rw [hpq a b hab]; exact hq),
        List.find?_cons_of_pos _ hq]
      exact .some hab
    · rw [List.find?_cons_of_neg _ (by rw [hpq a b hab]; exact hq),
        List.find?_cons_of_neg _ hq]
      exact ih
/-- C10: the matcher is invariant under letter-case changes.  Replacing the
certificate's serial number and equipment id by strings with the same
lowercase image yields the same matched tool, and replacing the store by one
whose identifier fields agree up to case yields a matched tool related by
`toolIdsLowEq` at the same position — every rule compares case-insensitively. -/
theorem matcher_case_insensitive :
    (∀ (cs cs' ct ct' : Str) (tools : List Tool),
      asciiLower cs = asciiLower cs' →
      asciiLower ct = asciiLower ct' →
      Option.map Prod.fst (match_cert_to_tool cs ct tools)
        = Option.map Prod.fst (match_cert_to_tool cs' ct' tools)) ∧
    (∀ (cs ct : Str) (tools tools' : List Tool),
      List.Forall₂ toolIdsLowEq tools tools' →
      Option.Rel (fun p q => toolIdsLowEq p.1 q.1)
        (match_cert_to_tool cs ct tools) (match_cert_to_tool cs ct tools')) := by
  constructor
  · intro cs cs' ct ct' tools hs ht
    have hs' : asciiLower (strip cs) = asciiLower (strip cs') := by
      rw [asciiLower_strip, asciiLower_strip, hs]
    have ht' : asciiLower (strip ct) = asciiLower (strip ct') := by
      rw [asciiLower_strip, asciiLower_strip, ht]
    unfold match_cert_to_tool
    simp only []
    rw [matchRule1_congr _ _ tools ht', matchRule2_congr _ _ tools ht',
      matchRule3_congr _ _ tools ht', matchRule4_congr _ _ tools hs',
      matchRule5_congr _ _ tools ht', matchRule6_congr _ _ tools hs']
    cases matchRule1 (strip ct') tools with
    | some t => rfl
    | none =>
    cases matchRule2 (strip ct') tools with
    | some t => rfl
    | none =>
    cases matchRule3 (strip ct') tools with
    | some t => rfl
    | none =>
    cases matchRule4 (strip cs') tools with
    | some t => rfl
    | none =>
    cases matchRule5 (strip ct') tools with
    | some t => rfl
    | none =>
    cases matchRule6 (strip cs') tools with
    | some t => rfl
    | none => rfl
  · intro cs ct tools tools' hf
    unfold match_cert_to_tool
    simp only []
    have h1 : Option.Rel toolIdsLowEq (matchRule1 (strip ct) tools)
        (matchRule1 (strip ct) tools') := by
      unfold matchRule1
      split
      · exact .none
      · exact find?_rel_of_forall2 hf (fun a b hab => by rw [hab.1])
    generalize hA1 : matchRule1 (strip ct) tools = o1 at h1 ⊢
    generalize hB1 : matchRule1 (strip ct) tools' = o1' at h1 ⊢
    cases h1 with
    | some hab => exact .some hab
    | none =>
    have h2 : Option.Rel toolIdsLowEq (matchRule2 (strip ct) tools)
        (matchRule2 (strip ct) tools') := by
      unfold matchRule2
      split
      · exact .none
      · exact find?_rel_of_forall2 hf (fun a b hab => by rw [hab.2.1])
    generalize hA2 : matchRule2 (strip ct) tools = o2 at h2 ⊢
    generalize hB2 : matchRule2 (strip ct) tools' = o2' at h2 ⊢
    cases h2 with
    | some hab => exact .some hab
    | none =>
    have h3 : Option.Rel toolIdsLowEq (matchRule3 (strip ct) tools)
        (matchRule3 (strip ct) tools') := by
      unfold matchRule3
      split
      · exact .none
      · exact find?_rel_of_forall2 hf (fun a b hab => by rw [hab.2.2.1])
    generalize hA3 : matchRule3 (strip ct) tools = o3 at h3 ⊢
    generalize hB3 : matchRule3 (strip ct) tools' = o3' at h3 ⊢
    cases h3 with
    | some hab => exact .some hab
    | none =>
    have h4 : Option.Rel toolIdsLowEq (matchRule4 (strip cs) tools)
        (matchRule4 (strip cs) tools') := by
      unfold matchRule4
      split
      · exact .none
      · exact find?_rel_of_forall2 hf (fun a b hab => by rw [hab.2.2.2])
    generalize hA4 : matchRule4 (strip cs) tools = o4 at h4 ⊢
    generalize hB4 : matchRule4 (strip cs) tools' = o4' at h4 ⊢
    cases h4 with
    | some hab => exact .some hab
    | none =>
    have h5 : Option.Rel toolIdsLowEq (matchRule5 (strip ct) tools)
        (matchRule5 (strip ct) tools') := by
      unfold matchRule5
      split
      · exact .none
      · exact find?_rel_of_forall2 hf
          (fun a b hab => by unfold icontains; rw [hab.1])
    generalize hA5 : matchRule5 (strip ct) tools = o5 at h5 ⊢
    generalize hB5 : matchRule5 (strip ct) tools' = o5' at h5 ⊢
    cases h5 with
    | some hab => exact .some hab
    | none =>
    have h6 : Option.Rel toolIdsLowEq (matchRule6 (strip cs) tools)
        (matchRule6 (strip cs) tools') := by
      unfold matchRule6
      split
      · exact .none
      · exact find?_rel_of_forall2 hf
          (fun a b hab => by unfold icontains; rw [hab.2.2.2])
    generalize hA6 : matchRule6 (strip cs) tools = o6 at h6 ⊢
    generalize hB6 : matchRule6 (strip cs) tools' = o6' at h6 ⊢
    cases h6 with
    | some hab => exact .some hab
    | none => exact .none

/-- Witness for C10: upper-casing the certificate identifiers leaves the
matched tool unchanged on a concrete store. -/
theorem matcher_case_insensitive_witness :
    Option.map Prod.fst (match_cert_to_tool "sn99".data "ab12".data
      [{ serial_number := "SN99".data, log_number := "L1".data, tool_id_number := "Ab12".data }])
      = Option.map Prod.fst (match_cert_to_tool "SN99".data "AB12".data
      [{ serial_number := "SN99".data, log_number := "L1".data, tool_id_number := "Ab12".data }]) :=
  matcher_case_insensitive.1 "sn99".data "SN99".data "ab12".data "AB12".data
    [{ serial_number := "SN99".data, log_number := "L1".data, tool_id_number := "Ab12".data }]
    (by decide) (by decide)
/-- C9: certificate field extraction is total — modelled as a pure function,
every `try/except` of the source becoming an `Option` — and returns a record
with every field present: the empty text yields the all-default record, a date
capture whose text does not parse under the month/day/4-digit-year format
leaves the date `none` rather than failing, and every missing capture leaves
its field at the default (empty string, `none` or empty list). -/
theorem parse_cert_total_defaults (text : Str) (caps : RegexCaps) :
    (text = [] → parse_cal_tec_cert text caps = {}) ∧
    (∀ s, caps.cal_due_date = some s → parseMDY (strip s) = none →
      (parse_cal_tec_cert text caps).cal_due_date = none) ∧
    (∀ s, caps.cal_date = some s → parseMDY (strip s) = none →
      (parse_cal_tec_cert text caps).cal_date = none) ∧
    (caps.cert_number = none → (parse_cal_tec_cert text caps).cert_number = []) ∧
    (caps.generated_date = none → (parse_cal_tec_cert text caps).generated_date = []) ∧
    (caps.work_order = none → (parse_cal_tec_cert text caps).work_order = []) ∧
    (caps.tool_id = none → (parse_cal_tec_cert text caps).tool_id = []) ∧
    (caps.serial_number = none → (parse_cal_tec_cert text caps).serial_number = []) ∧
    (caps.manufacturer = none → (parse_cal_tec_cert text caps).manufacturer = []) ∧
    (caps.model_number = none → (parse_cal_tec_cert text caps).model_number = []) ∧
    (caps.tool_type = none → (parse_cal_tec_cert text caps).tool_type = []) ∧
    (caps.description = none → (parse_cal_tec_cert text caps).description = []) ∧
    (caps.cal_result = none → (parse_cal_tec_cert text caps).cal_result = []) ∧
    (caps.cal_due_date = none → (parse_cal_tec_cert text caps).cal_due_date = none) ∧
    (caps.cal_date = none → (parse_cal_tec_cert text caps).cal_date = none) ∧
    (caps.as_found = none → (parse_cal_tec_cert text caps).as_found = []) ∧
    (caps.as_left = none → (parse_cal_tec_cert text caps).as_left = []) ∧
    (caps.service_technician = none →
      (parse_cal_tec_cert text caps).service_technician = []) ∧
    (caps.temperature = none → (parse_cal_tec_cert text caps).temperature = []) ∧
    (caps.cal_interval = none → (parse_cal_tec_cert text caps).cal_interval = []) ∧
    (caps.building = none → (parse_cal_tec_cert text caps).building = []) ∧
    (caps.floor = none → (parse_cal_tec_cert text caps).floor = []) ∧
    (caps.room = none → (parse_cal_tec_cert text caps).room = []) ∧
    (caps.tp_section = none → (parse_cal_tec_cert text caps).test_points = []) ∧
    (caps.std_section = none → (parse_cal_tec_cert text caps).standards_used = []) ∧
    (parse_cal_tec_cert text caps).crib_bin = [] ∧
    (parse_cal_tec_cert text caps).procedures_used = [] := by
  by_cases htext : text = []
  · subst htext
    and_intros <;> intros <;> simp_all [parse_cal_tec_cert]
  · unfold parse_cal_tec_cert
    rw [if_neg htext]
    and_intros <;> intros <;> simp_all

/-- Witness for C9: on a non-empty text, the captured dates 13/45/2024 and
2/30/2024 fail the month/day validation and are dropped as `none`; on the
empty text the parse is the all-default record. -/
theorem parse_cert_total_defaults_witness :
    (parse_cal_tec_cert "x".data
      { cal_due_date := some "13/45/2024".data,
        cal_date := some "2/30/2024".data }).cal_due_date = none ∧
    (parse_cal_tec_cert "x".data
      { cal_due_date := some "13/45/2024".data,
        cal_date := some "2/30/2024".data }).cal_date = none ∧
    parse_cal_tec_cert [] { cal_due_date := some "13/45/2024".data } = {} := by
  have h := parse_cert_total_defaults "x".data
    { cal_due_date := some "13/45/2024".data, cal_date := some "2/30/2024".data }
  have h0 := parse_cert_total_defaults [] { cal_due_date := some "13/45/2024".data }
  exact ⟨h.2.1 "13/45/2024".data rfl (by decide),
    h.2.2.1 "2/30/2024".data rfl (by decide), h0.1 rfl⟩
